import Mathlib

/-!
Shallow embedding of the table-extraction / workbook-layout pipeline and the
annotation-geometry code of `pdf_to_excel.py`, together with theorems checking
the specification's claims against it.

Conventions of the embedding:
* a PDF table cell as returned by the extraction collaborator is text or null,
  modelled as `Option String`;
* a raw table is a list of rows, each row a list of cells (possibly ragged);
* `pandas.DataFrame(data, columns=header)` on a list-of-lists is modelled by
  `mkDFRows`: ragged rows are padded with nulls to the widest row, and the
  construction raises when the header length differs from that width;
* the provenance columns `_page` / `_table` that the code adds to each frame
  and drops again before writing are modelled as the `page` / `table` fields
  of `DF`;
* `df.fillna('')` together with cell serialization is modelled by `fillRows`;
* exceptions raised during the conversion of one file are modelled by
  `Except String`.
-/

namespace PdfToExcel

/-- A cell of a raw extracted table: text, or null for a missing value. -/
abbrev Cell := Option String

/-- One PDF page as seen by the converter: the raw tables detected on it and
the plain text extracted from it (`none` models a null extraction result). -/
structure Page where
  tables : List (List (List Cell))
  text : Option String
deriving Repr, DecidableEq

/-- A normalized table (a pandas DataFrame after the `_page` / `_table`
provenance columns are accounted for separately): header cells, data rows,
1-based source page and table indices. -/
structure DF where
  columns : List Cell
  rows : List (List Cell)
  page : Nat
  table : Nat
deriving Repr, DecidableEq

/-- Python `max` over a list of naturals (0 on the empty list, where the code
never calls it). -/
def listMax (l : List Nat) : Nat := l.foldr max 0

/-- Header choice of `convert_single_file`:
`header = table[0] if table[0] else [f"Col{i}" for i in range(len(table[1]) if len(table) > 1 else 1)]`.
Row 0 is used verbatim whenever it is a nonempty list (Python truthiness);
only an empty row 0 triggers the synthetic `Col0..ColN-1` header. -/
def tableHeader (table : List (List Cell)) : List Cell :=
  match table with
  | [] => []
  | r0 :: rest =>
    if r0.isEmpty then
      (List.range (match rest with | r1 :: _ => r1.length | [] => 1)).map
        (fun i => some ("Col" ++ toString i))
    else r0

/-- `pandas.DataFrame(data, columns=header)` on a list of lists: every row is
padded with nulls to the width of the widest row, and construction fails with
`ValueError` unless the header length equals that width. -/
def mkDFRows (data : List (List Cell)) (ncols : Nat) : Except String (List (List Cell)) :=
  if listMax (data.map List.length) = ncols then
    Except.ok (data.map (fun r => r ++ List.replicate (ncols - r.length) none))
  else
    Except.error (toString ncols ++ " columns passed, passed data had " ++
      toString (listMax (data.map List.length)) ++ " columns")

/-- Per-table body of the extraction loop in `convert_single_file`
(lines 1511-1519): an empty table is skipped, row 0 (or a synthetic header)
names the columns, rows after row 0 become data, and a table without data rows
is skipped.  `pageNum` and `tableIdx` are the 0-based loop counters. -/
def processTable (pageNum tableIdx : Nat) (table : List (List Cell)) :
    Except String (Option DF) :=
  if table.isEmpty then Except.ok none
  else
    let header := tableHeader table
    let data := table.drop 1
    if data.isEmpty then Except.ok none
    else
      match mkDFRows data header.length with
      | Except.ok rows => Except.ok (some ⟨header, rows, pageNum + 1, tableIdx + 1⟩)
      | Except.error e => Except.error e

/-- The `enumerate(tables)` loop of one page, starting at table index `idx`. -/
def processTablesFrom (pageNum : Nat) : Nat → List (List (List Cell)) →
    Except String (List DF)
  | _, [] => Except.ok []
  | idx, t :: ts =>
    match processTable pageNum idx t with
    | Except.error e => Except.error e
    | Except.ok none => processTablesFrom pageNum (idx + 1) ts
    | Except.ok (some df) =>
      match processTablesFrom pageNum (idx + 1) ts with
      | Except.error e => Except.error e
      | Except.ok dfs => Except.ok (df :: dfs)

/-- The `enumerate(pdf.pages)` loop collecting `all_tables`, starting at page
index `n`. -/
def extractAllTablesFrom : Nat → List Page → Except String (List DF)
  | _, [] => Except.ok []
  | n, pg :: pgs =>
    match processTablesFrom n 0 pg.tables with
    | Except.error e => Except.error e
    | Except.ok dfs =>
      match extractAllTablesFrom (n + 1) pgs with
      | Except.error e => Except.error e
      | Except.ok rest => Except.ok (dfs ++ rest)

/-- Table extraction over the whole document. -/
def extractAllTables (pages : List Page) : Except String (List DF) :=
  extractAllTablesFrom 0 pages

/-- The text-fallback loop starting at page index `n`: one `(page, content)`
record per page whose extracted text is truthy (neither null nor empty). -/
def textRecordsFrom : Nat → List Page → List (Nat × String)
  | _, [] => []
  | n, pg :: pgs =>
    match pg.text with
    | some t =>
      if t = "" then textRecordsFrom (n + 1) pgs
      else (n + 1, t) :: textRecordsFrom (n + 1) pgs
    | none => textRecordsFrom (n + 1) pgs

/-- Text-fallback records of the whole document. -/
def textRecords (pages : List Page) : List (Nat × String) :=
  textRecordsFrom 0 pages

/-- One sheet of the output workbook: sheet name, the header row written by
`to_excel` when headers are enabled (`none` models `header=False`), and the
data rows as written (after `fillna('')`). -/
structure Sheet where
  name : String
  header : Option (List Cell)
  rows : List (List String)
deriving Repr, DecidableEq

/-- `fillna('')` on one cell: a null cell becomes the empty string. -/
def fillCell (c : Cell) : String := c.getD ""

/-- `fillna('')` on the data rows of a frame. -/
def fillRows (rows : List (List Cell)) : List (List String) :=
  rows.map (fun r => r.map fillCell)

/-- The `all_rows` accumulation of merge mode (lines 1541-1547): for each
frame, its header row, then its data rows, then one blank separator row of the
frame's own width. -/
def mergeAllRows (dfs : List DF) : List (List Cell) :=
  (dfs.map (fun df =>
    (df.columns :: df.rows) ++ [List.replicate df.columns.length (some "")])).flatten

/-- Merge mode (lines 1540-1556): pad every accumulated row that is shorter
than the widest one with empty strings, `fillna('')`, and write a single
headerless sheet named `All Tables`. -/
def mergedSheet (dfs : List DF) : Sheet :=
  let all_rows := mergeAllRows dfs
  let max_cols := if all_rows.isEmpty then 1 else listMax (all_rows.map List.length)
  let padded := all_rows.map (fun r =>
    if r.length < max_cols then r ++ List.replicate (max_cols - r.length) (some "") else r)
  ⟨"All Tables", none, fillRows padded⟩

/-- Python string slicing `s[:31]`: the first 31 characters. -/
def truncate31 (s : String) : String := String.mk (s.data.take 31)

/-- Sheet naming of separate mode: `f"Page{page}_Table{table}"[:31]`. -/
def sheetName (page table : Nat) : String :=
  truncate31 ("Page" ++ toString page ++ "_Table" ++ toString table)

/-- Separate mode, per frame (lines 1558-1564): drop the provenance columns,
`fillna('')`, and write one sheet with a header row. -/
def separateSheet (df : DF) : Sheet :=
  ⟨sheetName df.page df.table, some df.columns, fillRows df.rows⟩

/-- The `Text Content` sheet of the fallback path (lines 1532-1534). -/
def textSheet (records : List (Nat × String)) : Sheet :=
  ⟨"Text Content", some [some "Page", some "Content"],
    records.map (fun r => [toString r.1, r.2])⟩

/-- `convert_single_file` (lines 1503-1564), with the workbook content it
writes as the result and a raised exception as `Except.error`. -/
def convert_single_file (pages : List Page) (merge : Bool) :
    Except String (List Sheet) :=
  match extractAllTables pages with
  | Except.error e => Except.error e
  | Except.ok all_tables =>
    if all_tables.isEmpty then
      let text_data := textRecords pages
      if text_data.isEmpty then Except.error "PDF에서 추출할 내용이 없습니다."
      else Except.ok [textSheet text_data]
    else if merge then Except.ok [mergedSheet all_tables]
    else Except.ok (all_tables.map separateSheet)

/-- `convert_files` (lines 1484-1501): each queued file is converted in turn,
a per-file exception is caught and reported for that file only. -/
def convert_files (files : List (List Page)) (merge : Bool) :
    List (Except String (List Sheet)) :=
  files.map (fun pgs => convert_single_file pgs merge)

/-! Annotation-geometry engine.  Screen and document coordinates are embedded
as rationals; Python floats carry no semantic content here beyond arithmetic
(the spec states round-trips hold up to floating-point tolerance). -/

/-- `canvas_to_pdf_point` (lines 750-756): divide both screen coordinates by
`zoom_level * 1.5`. -/
def canvas_to_pdf_point (zoomLevel : ℚ) (c : ℚ × ℚ) : ℚ × ℚ :=
  (c.1 / (zoomLevel * (3 / 2)), c.2 / (zoomLevel * (3 / 2)))

/-- The document-to-screen direction, as used in `highlight_selected_annot`
(lines 666-677): multiply both document coordinates by `zoom_level * 1.5`. -/
def pdf_to_canvas_point (zoomLevel : ℚ) (p : ℚ × ℚ) : ℚ × ℚ :=
  (p.1 * (zoomLevel * (3 / 2)), p.2 * (zoomLevel * (3 / 2)))

/-- The editor's tool palette. -/
inductive Tool where
  | select
  | line
  | circle
  | rect
  | highlight
  | note
  | text
  | redact
deriving Repr, DecidableEq

/-- Whether `on_mouse_press` (lines 758-779) creates an annotation for the
given tool: sticky notes and text boxes fire on the press itself. -/
def on_mouse_press_creates (tool : Tool) : Bool :=
  tool = Tool.note ∨ tool = Tool.text

/-- Whether the dispatch at the end of `on_mouse_release` (lines 820-829)
creates an annotation for the given tool. -/
def release_dispatch_creates (tool : Tool) : Bool :=
  tool ∈ [Tool.line, Tool.circle, Tool.rect, Tool.highlight, Tool.redact]

/-- Whether `on_mouse_release` (lines 795-836) creates an annotation, for a
non-moving release of a drag from `(sx, sy)` to `(x, y)`: the minimum-size
check discards the gesture when both deltas are below 5 screen pixels and the
tool is not one of select / note / text, and otherwise the per-tool dispatch
runs. -/
def on_mouse_release_creates (tool : Tool) (sx sy x y : ℚ) : Bool :=
  if |x - sx| < 5 ∧ |y - sy| < 5 then
    if tool ∉ [Tool.select, Tool.note, Tool.text] then false
    else release_dispatch_creates tool
  else release_dispatch_creates tool

/-- A document rectangle `(x0, y0, x1, y1)`. -/
structure Rect4 where
  x0 : ℚ
  y0 : ℚ
  x1 : ℚ
  y1 : ℚ
deriving Repr, DecidableEq

/-- One annotation of the open page: its xref identifier, its numeric type
code (`annot.type[0]`; 3 is the line type), its bounding rectangle, and its
vertices (meaningful for lines). -/
structure Annot where
  xref : Nat
  atype : Nat
  rect : Rect4
  vertices : List (ℚ × ℚ)
deriving Repr, DecidableEq

/-- The per-annotation mutation of `finish_move_annotation` (lines 1136-1159):
a line annotation (type 3) with at least two vertices has its first two
vertices translated and becomes exactly those two points; any non-line
annotation has its rectangle translated; a line without two vertices is left
as is. -/
def moveAnnot (a : Annot) (dx dy : ℚ) : Annot :=
  if a.atype = 3 then
    match a.vertices with
    | v0 :: v1 :: _ =>
      { a with vertices := [(v0.1 + dx, v0.2 + dy), (v1.1 + dx, v1.2 + dy)] }
    | _ => a
  else
    { a with rect := ⟨a.rect.x0 + dx, a.rect.y0 + dy, a.rect.x1 + dx, a.rect.y1 + dy⟩ }

/-- The `for annot in page.annots()` loop of `finish_move_annotation`: the
first annotation whose xref matches the selection is mutated and the loop
breaks; the returned flag says whether a match was found. -/
def translateFirst (sel : Nat) (dx dy : ℚ) : List Annot → List Annot × Bool
  | [] => ([], false)
  | a :: rest =>
    if a.xref = sel then (moveAnnot a dx dy :: rest, true)
    else
      let r := translateFirst sel dx dy rest
      (a :: r.1, r.2)

/-- `finish_move_annotation` (lines 1109-1168), given that a move gesture is
in progress (`moving_annot_rect` and the selection are set): the screen delta
is divided by `zoom_level * 1.5`; if both components are below 1 document
unit the move is a no-op; otherwise the selected annotation is mutated and
the modified flag is set when a matching annotation exists. -/
def finish_move_annotation (zoomLevel sx sy x y : ℚ) (sel : Nat)
    (annots : List Annot) (modified : Bool) : List Annot × Bool :=
  let zoom := zoomLevel * (3 / 2)
  let dx := (x - sx) / zoom
  let dy := (y - sy) / zoom
  if |dx| < 1 ∧ |dy| < 1 then (annots, modified)
  else
    let r := translateFirst sel dx dy annots
    (r.1, modified || r.2)

/-- Result of `doc.save(...)` at the library boundary: success, or a raised
exception with a message. -/
inductive SaveOutcome where
  | ok
  | err (msg : String)
deriving Repr, DecidableEq

/-- `save_pdf` (lines 1236-1255): with no open document, or no chosen save
path, nothing changes; a successful save clears the modified flag; a failed
save reports an error message and leaves the modified flag unchanged.
Returns the new modified flag and the error message shown, if any. -/
def save_pdf (hasPdf : Bool) (savePath : Option String) (outcome : SaveOutcome)
    (modified : Bool) : Bool × Option String :=
  if !hasPdf then (modified, none)
  else
    match savePath with
    | none => (modified, none)
    | some _ =>
      match outcome with
      | SaveOutcome.ok => (false, none)
      | SaveOutcome.err m => (modified, some ("PDF 저장 실패: " ++ m))

/-- The maximum column count across a document's normalized tables. -/
def maxCols (dfs : List DF) : Nat := listMax (dfs.map (fun df => df.columns.length))

/-- A row right-padded to `n` cells with empty strings after null-filling: the
shape every row of the merged sheet takes. -/
def padFill (r : List Cell) (n : Nat) : List String :=
  r.map fillCell ++ List.replicate (n - r.length) ""

/-! Helper lemmas. -/

theorem le_listMax_of_mem {a : Nat} : ∀ {l : List Nat}, a ∈ l → a ≤ listMax l
  | [], h => absurd h (List.not_mem_nil a)
  | x :: xs, h => by
    rcases List.mem_cons.mp h with h | h
    · subst h
      exact le_max_left _ _
    · exact le_trans (le_listMax_of_mem h) (le_max_right _ _)

theorem listMax_le {l : List Nat} {n : Nat} (h : ∀ a ∈ l, a ≤ n) : listMax l ≤ n := by
  induction l with
  | nil => exact Nat.zero_le n
  | cons x xs ih =>
    exact max_le (h x (List.mem_cons_self x xs)) (ih fun a ha => h a (List.mem_cons_of_mem _ ha))

theorem mkDFRows_ok_shape {data : List (List Cell)} {n : Nat} {rows : List (List Cell)}
    (h : mkDFRows data n = Except.ok rows) :
    rows = data.map (fun r => r ++ List.replicate (n - r.length) none) ∧
    listMax (data.map List.length) = n := by
  rw [mkDFRows] at h
  by_cases hc : listMax (data.map List.length) = n
  · rw [if_pos hc] at h
    injection h with h1
    exact ⟨h1.symm, hc⟩
  · rw [if_neg hc] at h
    cases h

theorem sheetName_length_le (page table : Nat) : (sheetName page table).length ≤ 31 := by
  simp only [sheetName, truncate31, String.length_mk, List.length_take]
  exact min_le_left _ _

theorem sheetName_ne_empty (page table : Nat) : sheetName page table ≠ "" := by
  intro h
  have hlen : (sheetName page table).length = 0 := by rw [h]; rfl
  rw [sheetName, truncate31, String.length_mk, List.length_take] at hlen
  have h4 : 4 ≤ ("Page" ++ toString page ++ "_Table" ++ toString table).data.length := by
    have : ("Page" ++ toString page ++ "_Table" ++ toString table).data
        = "Page".data ++ (toString page).data ++ "_Table".data ++ (toString table).data := by
      simp [String.data_append]
    rw [this]
    simp only [List.length_append, List.length_cons, List.length_nil]
    omega
  omega

theorem mem_mergeAllRows_length {dfs : List DF}
    (hrect : ∀ df ∈ dfs, ∀ r ∈ df.rows, r.length = df.columns.length) :
    ∀ r ∈ mergeAllRows dfs, ∃ df ∈ dfs, r.length = df.columns.length := by
  intro r hr
  rw [mergeAllRows] at hr
  rcases List.mem_flatten.mp hr with ⟨blk, hblk, hrblk⟩
  rcases List.mem_map.mp hblk with ⟨df, hdf, hbdf⟩
  subst hbdf
  refine ⟨df, hdf, ?_⟩
  rcases List.mem_append.mp hrblk with h | h
  · rcases List.mem_cons.mp h with h | h
    · rw [h]
    · exact hrect df hdf r h
  · rcases List.mem_singleton.mp h with h
    simp [h]

theorem columns_mem_mergeAllRows {dfs : List DF} {df : DF} (hdf : df ∈ dfs) :
    df.columns ∈ mergeAllRows dfs := by
  rw [mergeAllRows]
  refine List.mem_flatten.mpr ⟨(df.columns :: df.rows) ++
    [List.replicate df.columns.length (some "")], List.mem_map.mpr ⟨df, hdf, rfl⟩, ?_⟩
  exact List.mem_append_left _ (List.mem_cons_self _ _)

theorem mergeAllRows_width {dfs : List DF}
    (hrect : ∀ df ∈ dfs, ∀ r ∈ df.rows, r.length = df.columns.length) :
    listMax ((mergeAllRows dfs).map List.length) = maxCols dfs := by
  apply le_antisymm
  · apply listMax_le
    intro a ha
    rcases List.mem_map.mp ha with ⟨r, hr, hra⟩
    rcases mem_mergeAllRows_length hrect r hr with ⟨df, hdf, hlen⟩
    rw [← hra, hlen]
    exact le_listMax_of_mem (List.mem_map.mpr ⟨df, hdf, rfl⟩)
  · apply listMax_le
    intro a ha
    rcases List.mem_map.mp ha with ⟨df, hdf, hda⟩
    rw [← hda]
    exact le_listMax_of_mem
      (List.mem_map.mpr ⟨df.columns, columns_mem_mergeAllRows hdf, rfl⟩)

theorem mergeAllRows_ne_nil {dfs : List DF} (hne : dfs ≠ []) :
    (mergeAllRows dfs).isEmpty = false := by
  cases dfs with
  | nil => exact absurd rfl hne
  | cons d ds => rfl

theorem padTo_fill {r : List Cell} {m : Nat} (h : r.length ≤ m) :
    (if r.length < m then r ++ List.replicate (m - r.length) (some "") else r).map fillCell
      = padFill r m := by
  by_cases hlt : r.length < m
  · rw [if_pos hlt, padFill]
    simp [List.map_append, List.map_replicate, fillCell]
  · rw [if_neg hlt, padFill]
    have h0 : m - r.length = 0 := by omega
    simp [h0]

theorem padFill_replicate {k m : Nat} (h : k ≤ m) :
    padFill (List.replicate k (some "")) m = List.replicate m "" := by
  rw [padFill]
  simp only [List.map_replicate, List.length_replicate]
  rw [show fillCell (some "") = "" from rfl, ← List.replicate_add]
  congr 1
  omega

theorem fill_pad_block {df : DF} {m : Nat}
    (hc : df.columns.length ≤ m)
    (hr : ∀ r ∈ df.rows, r.length = df.columns.length) :
    ((df.columns :: df.rows) ++ [List.replicate df.columns.length (some "")]).map
      (fun r => (if r.length < m then r ++ List.replicate (m - r.length) (some "") else r).map
        fillCell)
      = (padFill df.columns m :: df.rows.map (fun r => padFill r m))
        ++ [List.replicate m ""] := by
  simp only [List.map_append, List.map_cons, List.map_nil]
  congr 1
  · congr 1
    · exact padTo_fill hc
    · apply List.map_congr_left
      intro r hrr
      exact padTo_fill (by rw [hr r hrr]; exact hc)
  · rw [padTo_fill (by simpa using hc), padFill_replicate hc]

/-! Claim theorems. -/

/-- C1: in merge mode the planner builds a single sheet (named `All Tables`,
written without a pandas header) by emitting, for each normalized table in
input order, its header row, then its data rows, then one blank separator
row, and every emitted row is right-padded with empty strings so that all
rows share one width equal to the maximum column count across the input
tables. -/
theorem merge_layout (dfs : List DF) (hne : dfs ≠ [])
    (hrect : ∀ df ∈ dfs, ∀ r ∈ df.rows, r.length = df.columns.length) :
    (mergedSheet dfs).name = "All Tables" ∧
    (mergedSheet dfs).header = none ∧
    (∀ r ∈ (mergedSheet dfs).rows, r.length = maxCols dfs) ∧
    (mergedSheet dfs).rows
      = (dfs.map (fun df =>
          (padFill df.columns (maxCols dfs)
            :: df.rows.map (fun r => padFill r (maxCols dfs)))
          ++ [List.replicate (maxCols dfs) ""])).flatten := by
  have hwidth := mergeAllRows_width hrect
  have hEmpty := mergeAllRows_ne_nil hne
  have hrows : (mergedSheet dfs).rows
      = fillRows ((mergeAllRows dfs).map (fun r =>
          if r.length < maxCols dfs then
            r ++ List.replicate (maxCols dfs - r.length) (some "") else r)) := by
    simp only [mergedSheet, hEmpty, Bool.false_eq_true, if_false, hwidth]
  refine ⟨rfl, rfl, ?_, ?_⟩
  · rw [hrows]
    intro r hr
    simp only [fillRows, List.map_map] at hr
    rcases List.mem_map.mp hr with ⟨r0, hr0, hrfl⟩
    rcases mem_mergeAllRows_length hrect r0 hr0 with ⟨df, hdf, hl⟩
    have hle : r0.length ≤ maxCols dfs := by
      rw [hl]
      exact le_listMax_of_mem (List.mem_map.mpr ⟨df, hdf, rfl⟩)
    subst hrfl
    simp only [Function.comp_apply]
    by_cases hlt : r0.length < maxCols dfs
    · rw [if_pos hlt]
      simp only [List.length_map, List.length_append, List.length_replicate]
      omega
    · rw [if_neg hlt]
      simp only [List.length_map]
      omega
  · rw [hrows]
    simp only [fillRows, mergeAllRows, List.map_flatten, List.map_map]
    congr 1
    apply List.map_congr_left
    intro df hdf
    have hcle : df.columns.length ≤ maxCols dfs :=
      le_listMax_of_mem (List.mem_map.mpr ⟨df, hdf, rfl⟩)
    have hb := fill_pad_block hcle (hrect df hdf)
    simpa using hb

/-- C1 witness: the spec's example, two tables with 2 and 3 columns merged
into one sheet where every row is padded to 3 columns and a blank row
separates the two blocks. -/
theorem merge_layout_witness :
    (mergedSheet
      [⟨[some "A", some "B"], [[some "1", some "2"]], 1, 1⟩,
       ⟨[some "C", some "D", some "E"], [[some "3", some "4", some "5"]], 1, 2⟩]).rows
      = [["A", "B", ""], ["1", "2", ""], ["", "", ""],
         ["C", "D", "E"], ["3", "4", "5"], ["", "", ""]] := by
  have h := (merge_layout
    [⟨[some "A", some "B"], [[some "1", some "2"]], 1, 1⟩,
     ⟨[some "C", some "D", some "E"], [[some "3", some "4", some "5"]], 1, 2⟩]
    (by decide) (by decide)).2.2.2
  rw [h]
  rfl

/-- C3: an empty raw table is discarded; row 0 is used verbatim as the header
when it is present (nonempty), even if some of its cells are falsy; only when
row 0 is absent is a synthetic header `Col0..ColN-1` generated, with N the
length of row 1, or 1 when there is no row 1; the rows after row 0 become the
data, and a header-only table (no data rows) contributes nothing. -/
theorem header_inference_and_filtering (p t : Nat) :
    (processTable p t [] = Except.ok none) ∧
    (∀ r0 : List Cell, processTable p t [r0] = Except.ok none) ∧
    (∀ (r0 : List Cell) (rest : List (List Cell)), r0 ≠ [] → tableHeader (r0 :: rest) = r0) ∧
    (∀ (r1 : List Cell) (rest : List (List Cell)), tableHeader ([] :: r1 :: rest)
        = (List.range r1.length).map (fun i => some ("Col" ++ toString i))) ∧
    (tableHeader [[]] = [some "Col0"]) ∧
    (∀ (r0 : List Cell) (data : List (List Cell)) (df : DF),
        processTable p t (r0 :: data) = Except.ok (some df) →
        data ≠ [] ∧ df.columns = tableHeader (r0 :: data) ∧ df.rows.length = data.length ∧
        df.page = p + 1 ∧ df.table = t + 1) := by
  refine ⟨rfl, ?_, ?_, ?_, ?_, ?_⟩
  · intro r0
    rfl
  · intro r0 rest h
    cases r0 with
    | nil => exact absurd rfl h
    | cons c cs => rfl
  · intro r1 rest
    rfl
  · rfl
  · intro r0 data df h
    rw [processTable] at h
    simp only [List.isEmpty_cons, if_false, Bool.false_eq_true] at h
    by_cases hd : data.isEmpty
    · rw [List.isEmpty_iff] at hd
      subst hd
      simp at h
    · simp only [List.drop_succ_cons, List.drop_zero, hd, if_false, Bool.false_eq_true] at h
      rcases hmk : mkDFRows data (tableHeader (r0 :: data)).length with e | rows
      · rw [hmk] at h
        cases h
      · rw [hmk] at h
        have hdf : df = ⟨tableHeader (r0 :: data), rows, p + 1, t + 1⟩ := by
          cases h
          rfl
        subst hdf
        have hrows := (mkDFRows_ok_shape hmk).1
        refine ⟨by simpa [List.isEmpty_iff] using hd, rfl, ?_, rfl, rfl⟩
        simp [hrows]

/-- C3 witness: concrete instances of the header rules and the discard rules,
including a header row whose cells are all falsy but which is still used
verbatim. -/
theorem header_inference_and_filtering_witness :
    tableHeader [[none, some ""], [some "1", some "2"]] = [none, some ""] :=
  (header_inference_and_filtering 0 0).2.2.1 [none, some ""] [[some "1", some "2"]]
    (by decide)

/-- C5: in separate mode every sheet is named `Page{page}_Table{table}`
truncated to 31 characters, and for every valid 1-based (page, table) pair
that name is nonempty and at most 31 characters long. -/
theorem separate_mode_sheet_names (page table : Nat) (hp : 1 ≤ page) (ht : 1 ≤ table) :
    (sheetName page table ≠ "" ∧ (sheetName page table).length ≤ 31) ∧
    (∀ (pages : List Page) (dfs : List DF) (sheets : List Sheet),
      extractAllTables pages = Except.ok dfs →
      convert_single_file pages false = Except.ok sheets → dfs ≠ [] →
      ∀ sh ∈ sheets, ∃ df ∈ dfs, sh.name = sheetName df.page df.table) := by
  refine ⟨⟨sheetName_ne_empty page table, sheetName_length_le page table⟩, ?_⟩
  intro pages dfs sheets hex hconv hne sh hsh
  have hne' : dfs.isEmpty = false := by
    cases dfs with
    | nil => exact absurd rfl hne
    | cons d ds => rfl
  simp only [convert_single_file, hex, hne', Bool.false_eq_true, if_false] at hconv
  have hsheets : sheets = dfs.map separateSheet := by
    cases hconv
    rfl
  subst hsheets
  rcases List.mem_map.mp hsh with ⟨df, hdf, hrfl⟩
  exact ⟨df, hdf, by rw [← hrfl]; rfl⟩

/-- C5 witness: a concrete 1-based pair yields a nonempty name within the
31-character limit. -/
theorem separate_mode_sheet_names_witness :
    sheetName 2 3 ≠ "" ∧ (sheetName 2 3).length ≤ 31 :=
  (separate_mode_sheet_names 2 3 (by decide) (by decide)).1

/-- C6: in a batch, every queued file is converted independently and in
order: the k-th result is exactly the conversion of the k-th file, so a
failure of one file is confined to its own entry and every other file still
produces its own output. -/
theorem batch_partial_failure (files : List (List Page)) (merge : Bool) :
    (convert_files files merge).length = files.length ∧
    ∀ (k : Nat) (f : List Page), files[k]? = some f →
      (convert_files files merge)[k]? = some (convert_single_file f merge) := by
  constructor
  · simp [convert_files]
  · intro k f hk
    simp [convert_files, List.getElem?_map, hk]

/-- C6 witness: a two-file batch in which the second file raises (a ragged
table whose widest data row is narrower than its header) still converts the
first file; the failure occupies exactly its own slot. -/
theorem batch_partial_failure_witness :
    (convert_files [[⟨[], some "hello"⟩], [⟨[[[some "A", some "B"], [some "1"]]], none⟩]]
        true)[0]?
      = some (convert_single_file [⟨[], some "hello"⟩] true) :=
  (batch_partial_failure [[⟨[], some "hello"⟩], [⟨[[[some "A", some "B"], [some "1"]]], none⟩]]
    true).2 0 [⟨[], some "hello"⟩] rfl

/-- C7: the screen-to-document and document-to-screen transforms both use the
factor `zoomLevel * 1.5`, so the round trip is the identity for every point
and every zoom level in [0.5, 3.0]. -/
theorem zoom_roundtrip (z : ℚ) (p : ℚ × ℚ) (h1 : 1 / 2 ≤ z) (h2 : z ≤ 3) :
    canvas_to_pdf_point z (pdf_to_canvas_point z p) = p := by
  have hz : z * (3 / 2) ≠ 0 := by
    have : (0 : ℚ) < z := by linarith
    positivity
  simp only [canvas_to_pdf_point, pdf_to_canvas_point]
  exact Prod.ext (mul_div_cancel_right₀ p.1 hz) (mul_div_cancel_right₀ p.2 hz)

/-- C7 witness: the round trip at zoom 1 for the point (20, 20). -/
theorem zoom_roundtrip_witness :
    canvas_to_pdf_point 1 (pdf_to_canvas_point 1 (20, 20)) = (20, 20) :=
  zoom_roundtrip 1 (20, 20) (by norm_num) (by norm_num)

/-- C10: saving clears the modified flag exactly when a document is open, a
save path was chosen and the save succeeds; a failed save reports an error
and leaves the flag unchanged; with no chosen path nothing changes. -/
theorem save_dirty_flag (hasPdf : Bool) (path : Option String) (o : SaveOutcome) :
    ((save_pdf hasPdf path o true).1 = false ↔
      hasPdf = true ∧ path.isSome = true ∧ o = SaveOutcome.ok) ∧
    (∀ (m : Bool) (msg s : String), save_pdf true (some s) (SaveOutcome.err msg) m
        = (m, some ("PDF 저장 실패: " ++ msg))) ∧
    (∀ m : Bool, save_pdf hasPdf none o m = (m, none)) ∧
    (∀ (m : Bool) (s : String), save_pdf true (some s) SaveOutcome.ok m = (false, none)) := by
  refine ⟨?_, fun m msg s => rfl, ?_, fun m s => rfl⟩
  · cases hasPdf with
    | false => simp [save_pdf]
    | true =>
      cases path with
      | none => simp [save_pdf]
      | some s =>
        cases o with
        | ok => simp [save_pdf]
        | err m => simp [save_pdf]
  · intro m
    cases hasPdf with
    | false => rfl
    | true => rfl

theorem mem_textRecordsFrom {t : String} (ht : t ≠ "") :
    ∀ (pages : List Page) (k i : Nat) (pg : Page),
      pages[i]? = some pg → pg.text = some t → (k + i + 1, t) ∈ textRecordsFrom k pages := by
  intro pages
  induction pages with
  | nil =>
    intro k i pg hi _
    simp at hi
  | cons p ps ih =>
    intro k i pg hi htex
    cases i with
    | zero =>
      simp only [List.getElem?_cons_zero] at hi
      injection hi with hi
      subst hi
      simp only [textRecordsFrom, htex, if_neg ht]
      exact List.mem_cons_self _ _
    | succ j =>
      have hj : ps[j]? = some pg := by simpa using hi
      have hmem := ih (k + 1) j pg hj htex
      have harith : k + 1 + j + 1 = k + (j + 1) + 1 := by omega
      rw [harith] at hmem
      cases hp : p.text with
      | none => simpa [textRecordsFrom, hp] using hmem
      | some s =>
        by_cases hs : s = ""
        · simpa [textRecordsFrom, hp, hs] using hmem
        · simp only [textRecordsFrom, hp, if_neg hs]
          exact List.mem_cons_of_mem _ hmem

/-- C4: when extraction yields zero normalized tables, the converter falls
back to per-page plain text as a single `Text Content` sheet with columns
Page and Content and one row per page with truthy text; when there is no such
text either, it fails with the no-extractable-content error and produces no
workbook content. -/
theorem text_fallback (pages : List Page) (merge : Bool)
    (hzero : extractAllTables pages = Except.ok []) :
    (textRecords pages ≠ [] →
      convert_single_file pages merge =
        Except.ok [⟨"Text Content", some [some "Page", some "Content"],
          (textRecords pages).map (fun r => [toString r.1, r.2])⟩]) ∧
    (textRecords pages = [] →
      convert_single_file pages merge = Except.error "PDF에서 추출할 내용이 없습니다.") ∧
    (∀ (i : Nat) (pg : Page) (t : String), pages[i]? = some pg → pg.text = some t →
      t ≠ "" → (i + 1, t) ∈ textRecords pages) := by
  refine ⟨?_, ?_, ?_⟩
  · intro hne
    have hne' : (textRecords pages).isEmpty = false := by
      cases h : textRecords pages with
      | nil => exact absurd h hne
      | cons r rs => rfl
    simp only [convert_single_file, hzero, List.isEmpty_nil, if_true, hne',
      Bool.false_eq_true, if_false]
    rfl
  · intro hemp
    simp only [convert_single_file, hzero, List.isEmpty_nil, if_true, hemp,
      List.isEmpty_nil]
  · intro i pg t hi htex ht
    simpa using mem_textRecordsFrom ht pages 0 i pg hi htex

/-- C4 witness: a one-page document with no tables and nonempty text yields
exactly the `Text Content` sheet with the row (1, text). -/
theorem text_fallback_witness :
    convert_single_file [⟨[], some "hello"⟩] true =
      Except.ok [⟨"Text Content", some [some "Page", some "Content"],
        [["1", "hello"]]⟩] := by
  have h := (text_fallback [⟨[], some "hello"⟩] true rfl).1 (by decide)
  rw [h]
  rfl

/-- C2 counterexample: a raw table with one data row that is shorter than its
header is not normalized into a padded rectangular table; the DataFrame
construction raises instead, so the claim fails for this input. -/
theorem normalization_ragged_short_raises :
    processTable 0 0 [[some "A", some "B"], [some "1"]]
      = Except.error "2 columns passed, passed data had 1 columns" := rfl

/-- C2 (amended): for every raw table with at least one data row whose widest
data row is exactly as long as the header, normalization yields a rectangular
table: shorter data rows are right-padded to the header length, every written
row has the header's length, present cells are kept verbatim and absent/null
cells become the empty string, never a placeholder. -/
theorem normalizer_rectangular (p t : Nat) (r0 d0 : List Cell) (ds : List (List Cell))
    (hmax : listMax ((d0 :: ds).map List.length) = (tableHeader (r0 :: d0 :: ds)).length) :
    ∃ rows, processTable p t (r0 :: d0 :: ds)
        = Except.ok (some ⟨tableHeader (r0 :: d0 :: ds), rows, p + 1, t + 1⟩) ∧
      (∀ r ∈ fillRows rows, r.length = (tableHeader (r0 :: d0 :: ds)).length) ∧
      (∀ (i : Nat) (d : List Cell), (d0 :: ds)[i]? = some d →
        (fillRows rows)[i]? = some (d.map fillCell ++
          List.replicate ((tableHeader (r0 :: d0 :: ds)).length - d.length) "")) := by
  refine ⟨(d0 :: ds).map
    (fun r => r ++ List.replicate ((tableHeader (r0 :: d0 :: ds)).length - r.length) none),
    ?_, ?_, ?_⟩
  · have hmk : mkDFRows (d0 :: ds) (tableHeader (r0 :: d0 :: ds)).length
        = Except.ok ((d0 :: ds).map
          (fun r => r ++ List.replicate ((tableHeader (r0 :: d0 :: ds)).length - r.length)
            none)) := by
      rw [mkDFRows, if_pos hmax]
    simp only [processTable, List.isEmpty_cons, Bool.false_eq_true, if_false,
      List.drop_succ_cons, List.drop_zero, hmk]
  · intro r hr
    rcases List.mem_map.mp hr with ⟨r1, hr1, hrfl⟩
    rcases List.mem_map.mp hr1 with ⟨d, hd, hdfl⟩
    have hdle : d.length ≤ (tableHeader (r0 :: d0 :: ds)).length := by
      rw [← hmax]
      exact le_listMax_of_mem (List.mem_map.mpr ⟨d, hd, rfl⟩)
    subst hdfl
    subst hrfl
    simp only [List.length_map, List.length_append, List.length_replicate]
    omega
  · intro i d hd
    simp only [fillRows, List.map_map, List.getElem?_map, hd]
    simp [Function.comp, List.map_append, List.map_replicate, fillCell]

/-- C2 (amended) witness: the spec's own example, a two-column header with a
full row and a one-cell row. -/
theorem normalizer_rectangular_witness :
    ∃ rows, processTable 0 0 [[some "A", some "B"], [some "1", some "2"], [some "3"]]
        = Except.ok (some ⟨tableHeader [[some "A", some "B"], [some "1", some "2"],
            [some "3"]], rows, 0 + 1, 0 + 1⟩) ∧
      (∀ r ∈ fillRows rows, r.length = (tableHeader [[some "A", some "B"],
          [some "1", some "2"], [some "3"]]).length) ∧
      (∀ (i : Nat) (d : List Cell), [[some "1", some "2"], [some "3"]][i]? = some d →
        (fillRows rows)[i]? = some (d.map fillCell ++
          List.replicate ((tableHeader [[some "A", some "B"], [some "1", some "2"],
            [some "3"]]).length - d.length) ""))  :=
  normalizer_rectangular 0 0 [some "A", some "B"] [some "1", some "2"] [[some "3"]]
    (by decide)

/-- C8: with a drag-based shape tool a completed drag creates an annotation
exactly when one of the screen deltas reaches 5 pixels; the point-based tools
(sticky note, text box) create on the press itself and never on release. -/
theorem min_size_policy (tool : Tool) (sx sy x y : ℚ) :
    (tool ∈ [Tool.line, Tool.circle, Tool.rect, Tool.highlight, Tool.redact] →
      (on_mouse_release_creates tool sx sy x y = true ↔ 5 ≤ |x - sx| ∨ 5 ≤ |y - sy|)) ∧
    (on_mouse_press_creates Tool.note = true ∧ on_mouse_press_creates Tool.text = true) ∧
    (tool = Tool.note ∨ tool = Tool.text → on_mouse_release_creates tool sx sy x y = false) := by
  refine ⟨?_, ⟨rfl, rfl⟩, ?_⟩
  · intro hmem
    have hnot : tool ∉ [Tool.select, Tool.note, Tool.text] := by
      fin_cases hmem <;> decide
    have hdisp : release_dispatch_creates tool = true := by
      simpa [release_dispatch_creates] using hmem
    rw [on_mouse_release_creates]
    by_cases hsm : |x - sx| < 5 ∧ |y - sy| < 5
    · rw [if_pos hsm, if_pos hnot]
      simp only [Bool.false_eq_true, false_iff, not_or, not_le]
      exact hsm
    · rw [if_neg hsm, hdisp]
      simp only [true_iff]
      rw [not_and_or, not_lt, not_lt] at hsm
      exact hsm
  · intro h
    rcases h with rfl | rfl <;>
      simp [on_mouse_release_creates, release_dispatch_creates]

/-- C8 witness: a 10-pixel horizontal drag with the line tool creates a
shape. -/
theorem min_size_policy_witness :
    on_mouse_release_creates Tool.line 0 0 10 0 = true :=
  ((min_size_policy Tool.line 0 0 10 0).1 (by decide)).mpr (Or.inl (by
    rw [sub_zero, abs_of_nonneg (by norm_num : (0 : ℚ) ≤ 10)]
    norm_num))

theorem translateFirst_cons (sel : Nat) (dx dy : ℚ) (b : Annot) (l : List Annot) :
    translateFirst sel dx dy (b :: l)
      = if b.xref = sel then (moveAnnot b dx dy :: l, true)
        else (b :: (translateFirst sel dx dy l).1, (translateFirst sel dx dy l).2) := by
  rw [translateFirst]

theorem translateFirst_append {sel : Nat} {dx dy : ℚ} {pre post : List Annot} {a : Annot}
    (hsel : a.xref = sel) (hpre : ∀ b ∈ pre, b.xref ≠ sel) :
    translateFirst sel dx dy (pre ++ a :: post) = (pre ++ moveAnnot a dx dy :: post, true) := by
  induction pre with
  | nil =>
    rw [List.nil_append, List.nil_append, translateFirst_cons, if_pos hsel]
  | cons b bs ih =>
    have hb : b.xref ≠ sel := hpre b (List.mem_cons_self b bs)
    have ih' := ih fun c hc => hpre c (List.mem_cons_of_mem _ hc)
    rw [List.cons_append, translateFirst_cons, if_neg hb, ih', List.cons_append]

/-- C9: completing a move gesture applies the document-space delta obtained
by dividing the screen delta by `zoomLevel * 1.5`; if both components of that
delta are below 1 document unit in magnitude the move is a no-op (annotations
and modified flag unchanged); otherwise a line annotation has both endpoint
vertices translated, any other annotation has its rectangle translated, and
the modified flag is set. -/
theorem finish_move_spec (zl sx sy x y : ℚ) (sel : Nat) (pre post : List Annot)
    (a : Annot) (modified : Bool) (hsel : a.xref = sel)
    (hpre : ∀ b ∈ pre, b.xref ≠ sel) :
    ((|(x - sx) / (zl * (3 / 2))| < 1 ∧ |(y - sy) / (zl * (3 / 2))| < 1) →
      finish_move_annotation zl sx sy x y sel (pre ++ a :: post) modified
        = (pre ++ a :: post, modified)) ∧
    (¬(|(x - sx) / (zl * (3 / 2))| < 1 ∧ |(y - sy) / (zl * (3 / 2))| < 1) →
      (∀ (v0 v1 : ℚ × ℚ) (vr : List (ℚ × ℚ)), a.atype = 3 → a.vertices = v0 :: v1 :: vr →
        finish_move_annotation zl sx sy x y sel (pre ++ a :: post) modified
          = (pre ++ { a with vertices :=
              [(v0.1 + (x - sx) / (zl * (3 / 2)), v0.2 + (y - sy) / (zl * (3 / 2))),
               (v1.1 + (x - sx) / (zl * (3 / 2)), v1.2 + (y - sy) / (zl * (3 / 2)))] }
              :: post, true)) ∧
      (a.atype ≠ 3 →
        finish_move_annotation zl sx sy x y sel (pre ++ a :: post) modified
          = (pre ++ { a with rect := ⟨a.rect.x0 + (x - sx) / (zl * (3 / 2)),
              a.rect.y0 + (y - sy) / (zl * (3 / 2)),
              a.rect.x1 + (x - sx) / (zl * (3 / 2)),
              a.rect.y1 + (y - sy) / (zl * (3 / 2))⟩ } :: post, true))) := by
  constructor
  · intro hsm
    simp only [ finish_move_annotation, if_pos hsm]
  · intro hsm
    constructor
    · intro v0 v1 vr ha3 hv
      simp only [ finish_move_annotation, if_neg hsm, translateFirst_append hsel hpre,
        Bool.or_true]
      simp [moveAnnot, ha3, hv]
    · intro ha3
      simp only [ finish_move_annotation, if_neg hsm, translateFirst_append hsel hpre,
        Bool.or_true]
      simp [moveAnnot, ha3]

/-- C9 witness: the spec's example, a rectangle annotation moved by screen
delta (20, 20) at zoom 1.0 is translated by 40/3 in both document axes and
the document becomes modified. -/
theorem finish_move_spec_witness :
    finish_move_annotation 1 0 0 20 20 7
      [⟨7, 4, ⟨0, 0, 10, 10⟩, []⟩] false
      = ([⟨7, 4, ⟨40 / 3, 40 / 3, 10 + 40 / 3, 10 + 40 / 3⟩, []⟩], true) := by
  have h := ((finish_move_spec 1 0 0 20 20 7 [] [] ⟨7, 4, ⟨0, 0, 10, 10⟩, []⟩ false rfl
    (by intro b hb; cases hb)).2 (by
      have hval : ((20 : ℚ) - 0) / (1 * (3 / 2)) = 40 / 3 := by norm_num
      rw [hval, abs_of_nonneg (by norm_num : (0 : ℚ) ≤ 40 / 3)]
      intro hcon
      have := hcon.1
      linarith)).2 (by decide)
  simp only [List.nil_append] at h
  rw [h]
  norm_num

/-- C10 witness: a successful save of a dirty document over a chosen path
clears the modified flag and reports no error. -/
theorem save_dirty_flag_witness :
    save_pdf true (some "out.pdf") SaveOutcome.ok true = (false, none) :=
  (save_dirty_flag true (some "out.pdf") SaveOutcome.ok).2.2.2 true "out.pdf"

end PdfToExcel
